import Mathlib

/-! # Order-system core: model and verification

Shallow embedding of the core logic of `src/app.py` of the order-system
repository: the cutoff evaluator, order-submission validation and
normalization, per-item aggregation, per-order totals, the payment toggle,
and the resolution of the storage-loading definitions.

Numbers displayed as money are modelled as rationals; Python's `int(...)`
and `.astype(int)` conversions are modelled by truncation toward zero.
Instants in time are modelled as whole seconds.
-/

namespace OrderSystem

/-- Python `int(x)` / pandas `.astype(int)` conversion applied to a real
quantity (app.py lines 295, 340, 364, 375, 419): truncation toward zero,
which is the floor for non-negative arguments. -/
def pyint (q : ℚ) : ℤ := if 0 ≤ q then ⌊q⌋ else -⌊-q⌋

theorem pyint_eq_floor {q : ℚ} (h : 0 ≤ q) : pyint q = ⌊q⌋ := if_pos h

theorem pyint_intCast (z : ℤ) : pyint (z : ℚ) = z := by
  unfold pyint
  split
  · exact Int.floor_intCast z
  · rw [← Int.cast_neg, Int.floor_intCast]; omega

/-- Message returned by `cutoff_state` (app.py lines 124 and 130).  The two
f-strings are carried structurally: `passedMsg` is the already-closed
message and `remainingMsg` the remaining-time message; both embed the
formatted cutoff instant, and `remainingMsg` also embeds the remaining
days, hours and minutes. -/
inductive CutoffMsg where
  | passedMsg (cutoff : ℤ)
  | remainingMsg (d h m : ℤ) (cutoff : ℤ)
deriving DecidableEq

/-- Comparison and remaining-time part of `cutoff_state` (app.py lines
123-130), over instants measured in whole seconds.  `left = cutoff - now`
is the Python `timedelta`; its normalization puts `days = left fdiv 86400`
and `seconds = left mod 86400` (here `left > 0`, so the euclidean `/` and
`%` agree with Python's floor semantics); the code then takes
`h = left.seconds // 3600` and `m = (left.seconds % 3600) // 60`. -/
def cutoff_state (now cutoff : ℤ) : Bool × CutoffMsg :=
  if cutoff ≤ now then (true, CutoffMsg.passedMsg cutoff)
  else
    (false, CutoffMsg.remainingMsg ((cutoff - now) / 86400)
      ((cutoff - now) % 86400 / 3600) ((cutoff - now) % 86400 % 3600 / 60) cutoff)

/-- C2: for every deadline and current time, `cutoff_state` reports
`passed = true` exactly when `now ≥ cutoff` (with the passed-message
carrying the formatted deadline), and when `now` is strictly before the
deadline it reports `passed = false` together with a days/hours/minutes
decomposition (each a whole-unit floor, hours in `[0,24)`, minutes in
`[0,60)`) whose sum equals the true difference with the seconds part
discarded. -/
theorem cutoff_state_correct (now cutoff : ℤ) :
    ((cutoff_state now cutoff).1 = true ↔ cutoff ≤ now) ∧
    (cutoff ≤ now → (cutoff_state now cutoff).2 = CutoffMsg.passedMsg cutoff) ∧
    (now < cutoff →
      ∃ d h m : ℤ, (cutoff_state now cutoff).2 = CutoffMsg.remainingMsg d h m cutoff ∧
        0 ≤ d ∧ 0 ≤ h ∧ h < 24 ∧ 0 ≤ m ∧ m < 60 ∧
        d * 86400 + h * 3600 + m * 60 = (cutoff - now) - (cutoff - now) % 60) := by
  by_cases hc : cutoff ≤ now
  · exact ⟨by simp [cutoff_state, hc], fun _ => by simp [cutoff_state, hc],
      fun hlt => absurd hc (not_le.mpr hlt)⟩
  · refine ⟨by simp [cutoff_state, hc], fun h => absurd h hc, fun hlt => ?_⟩
    refine ⟨(cutoff - now) / 86400, (cutoff - now) % 86400 / 3600,
      (cutoff - now) % 86400 % 3600 / 60, by simp [cutoff_state, hc], ?_, ?_, ?_, ?_, ?_, ?_⟩
      <;> omega

/-- Witness for `cutoff_state_correct` at `now = 0`,
`cutoff = 90060` (one day, one hour, one minute later). -/
theorem cutoff_state_correct_witness :
    ∃ d h m : ℤ, (cutoff_state 0 90060).2 = CutoffMsg.remainingMsg d h m 90060 ∧
      0 ≤ d ∧ 0 ≤ h ∧ h < 24 ∧ 0 ≤ m ∧ m < 60 ∧
      d * 86400 + h * 3600 + m * 60 = ((90060 : ℤ) - 0) - ((90060 : ℤ) - 0) % 60 :=
  (cutoff_state_correct 0 90060).2.2 (by decide)

/-- Local-time instant at second precision, as carried by Python's
`datetime` (microseconds are irrelevant to the modelled paths and are
dropped). -/
structure DateTime where
  year : ℕ
  month : ℕ
  day : ℕ
  hour : ℕ
  minute : ℕ
  second : ℕ
deriving DecidableEq

/-- Gregorian leap-year rule, as used by `datetime`'s date validation. -/
def isLeapYear (y : ℕ) : Bool := (y % 4 == 0 && y % 100 != 0) || (y % 400 == 0)

/-- Number of days of month `m` of year `y` (the bound `datetime` checks
when a parsed date is constructed). -/
def daysInMonth (y m : ℕ) : ℕ :=
  if m = 2 then (if isLeapYear y then 29 else 28)
  else if m = 4 ∨ m = 6 ∨ m = 9 ∨ m = 11 then 30 else 31

/-- Python `str.strip()` with no argument: remove leading and trailing
whitespace. -/
def pystrip (s : String) : String :=
  ⟨((s.data.dropWhile Char.isWhitespace).reverse.dropWhile Char.isWhitespace).reverse⟩

/-- Python `str.split(sep)` for a one-character separator: split on every
occurrence, keeping empty fields (`"".split(":") == [""]`). -/
def splitOnChar (c : Char) : List Char → List (List Char)
  | [] => [[]]
  | x :: xs =>
      let r := splitOnChar c xs
      if x = c then [] :: r
      else
        match r with
        | [] => [[x]]
        | h :: t => (x :: h) :: t

/-- Leading run of decimal digits of a character list, with the rest. -/
def takeDigits : List Char → List Char × List Char
  | [] => ([], [])
  | c :: cs =>
      if c.isDigit then
        let p := takeDigits cs
        (c :: p.1, p.2)
      else ([], c :: cs)

/-- Numeric value of a list of decimal digits. -/
def digitsToNat (ds : List Char) : ℕ := ds.foldl (fun n c => 10 * n + (c.toNat - 48)) 0

/-- One numeric `strptime` field of at most two digits whose value must lie
in `[lo, hi]` — CPython compiles `%m`, `%d`, `%H` and `%M` to regular
expressions that accept one or two digits within the directive's range,
and any further digit makes the following literal fail to match. -/
def parseField2 (lo hi : ℕ) (cs : List Char) : Option (ℕ × List Char) :=
  let p := takeDigits cs
  if p.1 ≠ [] ∧ p.1.length ≤ 2 ∧ lo ≤ digitsToNat p.1 ∧ digitsToNat p.1 ≤ hi then
    some (digitsToNat p.1, p.2)
  else none

/-- Literal character of a `strptime` format string. -/
def matchChar (c : Char) : List Char → Option (List Char)
  | [] => none
  | x :: xs => if x = c then some xs else none

/-- Whitespace in a `strptime` format string matches one or more
whitespace characters of the input. -/
def matchWs (cs : List Char) : Option (List Char) :=
  match cs with
  | x :: xs => if x.isWhitespace then some (xs.dropWhile Char.isWhitespace) else none
  | [] => none

/-- One attempted `datetime.strptime(s, fmt)` for the three formats of
app.py line 109, which share the shape `%Y sep %m sep %d [,] ws %H:%M`:
`%Y` is exactly four digits, the other fields one or two digits within
range, the whole input must be consumed, and the resulting date must be a
valid calendar date (year at least 1, day within the month) or the call
raises `ValueError`.  `none` models the raised `ValueError`. -/
def strptimeYMDHM (sep : Char) (withComma : Bool) (s : String) : Option DateTime := do
  let (yds, r1) := takeDigits s.data
  guard (yds.length = 4)
  let y := digitsToNat yds
  let r2 ← matchChar sep r1
  let (mo, r3) ← parseField2 1 12 r2
  let r4 ← matchChar sep r3
  let (d, r5) ← parseField2 1 31 r4
  let r6 ← if withComma then matchChar ',' r5 else pure r5
  let r7 ← matchWs r6
  let (h, r8) ← parseField2 0 23 r7
  let r9 ← matchChar ':' r8
  let (mi, r10) ← parseField2 0 59 r9
  guard (r10 = [])
  guard (1 ≤ y)
  guard (d ≤ daysInMonth y mo)
  pure ⟨y, mo, d, h, mi, 0⟩

/-- The `for fmt in [...]` loop of app.py lines 109-116: the three
layouts `%Y/%m/%d, %H:%M`, `%Y-%m-%d, %H:%M` and `%Y/%m/%d %H:%M` are
tried in order on the stripped string and the first success wins; if all
fail the loop's `else` raises (modelled by `none`). -/
def strptimeFormats (s : String) : Option DateTime :=
  match strptimeYMDHM '/' true s with
  | some dt => some dt
  | none =>
      match strptimeYMDHM '-' true s with
      | some dt => some dt
      | none => strptimeYMDHM '/' false s

/-- Python `int(str)`: surrounding whitespace is ignored, an optional
sign is followed by a non-empty run of digits; anything else raises
`ValueError` (modelled by `none`). -/
def pyIntOfChars (cs : List Char) : Option ℤ :=
  match ((cs.dropWhile Char.isWhitespace).reverse.dropWhile Char.isWhitespace).reverse with
  | [] => none
  | c :: rest =>
      let p : ℤ × List Char :=
        if c = '-' then (-1, rest) else if c = '+' then (1, rest) else (1, c :: rest)
      if p.2 ≠ [] ∧ p.2.all Char.isDigit then some (p.1 * (digitsToNat p.2 : ℤ)) else none

/-- The bare time-of-day branch of `cutoff_state` (app.py lines 118-119):
`hh, mm = map(int, cutoff_str.strip().split(":"))` followed by
`now.replace(hour=hh, minute=mm, second=0, microsecond=0)`.  Splitting
must yield exactly two fields (otherwise tuple unpacking raises), each
must be a Python integer, and `replace` validates `0 ≤ hh ≤ 23` and
`0 ≤ mm ≤ 59`; any failure is modelled by `none`. -/
def parse_hhmm (s : String) (now : DateTime) : Option DateTime :=
  match splitOnChar ':' s.data with
  | [a, b] => do
      let hh ← pyIntOfChars a
      let mm ← pyIntOfChars b
      guard (0 ≤ hh ∧ hh ≤ 23 ∧ 0 ≤ mm ∧ mm ≤ 59)
      pure ⟨now.year, now.month, now.day, hh.toNat, mm.toNat, 0⟩
  | _ => none

/-- The branch test of app.py line 108: the raw cutoff string is scanned
for a date-like character. -/
def containsDateChar (s : String) : Bool :=
  s.data.any fun c => (c == '/') || (c == '-') || (c == '年') || (c == '月')

/-- Parsing part of `cutoff_state` (app.py lines 106-121): date-like
strings go through the three `strptime` layouts, the rest through the
`HH:MM` branch; `none` models control reaching the `except` arm. -/
def parse_cutoff (cutoff_str : String) (now : DateTime) : Option DateTime :=
  if containsDateChar cutoff_str then strptimeFormats (pystrip cutoff_str)
  else parse_hhmm (pystrip cutoff_str) now

/-- The defensive default of app.py line 121:
`now.replace(hour=18, minute=0, second=0, microsecond=0)`. -/
def default_cutoff (now : DateTime) : DateTime :=
  ⟨now.year, now.month, now.day, 18, 0, 0⟩

/-- The cutoff instant `cutoff_state` ends up comparing against: the
parsed value when some layout parses, the 18:00 default otherwise. -/
def cutoff_datetime (cutoff_str : String) (now : DateTime) : DateTime :=
  (parse_cutoff cutoff_str now).getD (default_cutoff now)

/-- C8: for every deadline string that parses in none of the accepted
layouts (neither a bare `HH:MM` time-of-day nor any of the three fixed
date-time layouts), the evaluator reports no error and uses the default
deadline of 18:00 local time on the current date. -/
theorem cutoff_fallback_default (s : String) (now : DateTime)
    (h : parse_cutoff s now = none) :
    cutoff_datetime s now = default_cutoff now ∧
    (cutoff_datetime s now).hour = 18 ∧ (cutoff_datetime s now).minute = 0 ∧
    (cutoff_datetime s now).year = now.year ∧ (cutoff_datetime s now).month = now.month ∧
    (cutoff_datetime s now).day = now.day := by
  simp [cutoff_datetime, h, default_cutoff]

/-- Witness for `cutoff_fallback_default`: the unparseable string
`"soon"` on 2025-10-14 09:30 falls back to 18:00 that day. -/
theorem cutoff_fallback_default_witness :
    cutoff_datetime "soon" ⟨2025, 10, 14, 9, 30, 0⟩ = ⟨2025, 10, 14, 18, 0, 0⟩ :=
  (cutoff_fallback_default "soon" ⟨2025, 10, 14, 9, 30, 0⟩ (by decide)).1

/-- One editable row of the order form (the dicts held in
`st.session_state["rows_single_page_store"]`, app.py lines 256-258 and
288-293).  The form widgets enforce `unit_price ≥ 0.0` and an integer
`qty ≥ 0`, so quantities are modelled as naturals and prices as
rationals. -/
structure FormRow where
  item_name : String
  unit_price : ℚ
  qty : ℕ
deriving DecidableEq

/-- One persisted order: the columns of `data/orders.csv`
(`order_id, user_name, note, created_at, is_paid`, app.py line 70); all
columns are read back as strings (`dtype=str`). -/
structure OrderRec where
  order_id : String
  user_name : String
  note : String
  created_at : String
  is_paid : String
deriving DecidableEq

/-- One persisted line item: the columns of `data/order_items.csv`
(`order_id, item_name, qty, unit_price`, app.py line 71), with `qty`
coerced to an integer and `unit_price` to a number on load. -/
structure ItemRec where
  order_id : String
  item_name : String
  qty : ℕ
  unit_price : ℚ
deriving DecidableEq

/-- The two persisted record collections. -/
structure Stores where
  orders : List OrderRec
  items : List ItemRec
deriving DecidableEq

/-- The two validation failures of the submission branch (app.py lines
310-314), named as in the specification's error taxonomy. -/
inductive SubmitErr where
  | EmptyName
  | NoValidItems
deriving DecidableEq

/-- The row filter of app.py line 312:
`r["item_name"].strip() and r["qty"] > 0`. -/
def validRow (r : FormRow) : Bool :=
  decide (pystrip r.item_name ≠ "" ∧ 0 < r.qty)

/-- Normalization of one kept row into a persisted line item (app.py
lines 328-334): the item name is stripped, `qty` passes through `int`
and `unit_price` through `float`. -/
def normalizeRow (oid : String) (r : FormRow) : ItemRec :=
  ⟨oid, pystrip r.item_name, r.qty, r.unit_price⟩

/-- The submitted branch of the order form (app.py lines 309-336), up to
the point where the two CSV stores are saved.  `oid` stands for the
freshly drawn `uuid.uuid4().hex[:12]` and `now` for the formatted current
timestamp, both inputs from the environment.  An error outcome pairs the
error with the unchanged stores, because `st.stop()` aborts the run
before any write; on success the new order row and the normalized line
items are appended to their stores. -/
def submit_order (name note : String) (rows : List FormRow) (oid now : String)
    (st : Stores) : Option SubmitErr × Stores :=
  if pystrip name = "" then (some SubmitErr.EmptyName, st)
  else if rows.filter validRow = [] then (some SubmitErr.NoValidItems, st)
  else
    (none,
      ⟨st.orders ++ [⟨oid, pystrip name, pystrip note, now, "否"⟩],
        st.items ++ (rows.filter validRow).map (normalizeRow oid)⟩)

/-- C3: a draft submission fails with `EmptyName` exactly when the
stripped submitter name is empty, otherwise fails with `NoValidItems`
exactly when no row has both a non-empty stripped item name and a
positive quantity; and whenever validation fails, neither the order
store nor the line-item store is written. -/
theorem submit_order_validation (name note : String) (rows : List FormRow)
    (oid now : String) (st : Stores) :
    ((submit_order name note rows oid now st).1 = some SubmitErr.EmptyName ↔
      pystrip name = "") ∧
    ((submit_order name note rows oid now st).1 = some SubmitErr.NoValidItems ↔
      (pystrip name ≠ "" ∧ rows.filter validRow = [])) ∧
    (∀ e, (submit_order name note rows oid now st).1 = some e →
      (submit_order name note rows oid now st).2 = st) := by
  unfold submit_order
  by_cases h1 : pystrip name = ""
  · simp [h1]
  · by_cases h2 : rows.filter validRow = [] <;> simp [h1, h2]

/-- Witness for `submit_order_validation`: the empty submitter name is
rejected and leaves the (empty) stores untouched. -/
theorem submit_order_validation_witness :
    (submit_order "" "x" [] "oid1" "t" ⟨[], []⟩).2 = ⟨[], []⟩ :=
  (submit_order_validation "" "x" [] "oid1" "t" ⟨[], []⟩).2.2 SubmitErr.EmptyName (by decide)

/-- C7: a successful draft validation appends a normalized order carrying
the supplied fresh identifier (non-empty and unused, per the
`uuid.uuid4().hex[:12]` contract, taken here as hypotheses on the
environment-supplied token), the stripped name, the stripped note, the
current timestamp and the unpaid flag; the final order store contains
exactly one order with that identifier; and exactly the kept rows are
appended as line items, each with stripped name, its integer quantity
(positive by the filter) and its non-negative unit price.  In particular
`validate_draft("Alice", "", [{"Tea", 2, 30}])` yields exactly one line
item with quantity 2 and unit price 30. -/
theorem submit_order_success (name note : String) (rows : List FormRow)
    (oid now : String) (st : Stores)
    (hname : pystrip name ≠ "") (hrows : rows.filter validRow ≠ [])
    (hoid : oid ≠ "") (hfresh : ∀ o ∈ st.orders, o.order_id ≠ oid)
    (hprice : ∀ r ∈ rows, 0 ≤ r.unit_price) :
    (submit_order name note rows oid now st).1 = none ∧
    (submit_order name note rows oid now st).2.orders =
      st.orders ++ [⟨oid, pystrip name, pystrip note, now, "否"⟩] ∧
    (submit_order name note rows oid now st).2.orders.countP
      (fun o => decide (o.order_id = oid)) = 1 ∧
    (submit_order name note rows oid now st).2.items =
      st.items ++ (rows.filter validRow).map (normalizeRow oid) ∧
    (∀ it ∈ (rows.filter validRow).map (normalizeRow oid),
      it.order_id = oid ∧ it.order_id ≠ "" ∧ 0 < it.qty ∧ 0 ≤ it.unit_price ∧
      ∃ r ∈ rows, validRow r = true ∧ it = normalizeRow oid r) ∧
    (submit_order "Alice" "" [⟨"Tea", 30, 2⟩] oid now ⟨[], []⟩).2.items =
      [⟨oid, "Tea", 2, 30⟩] := by
  have hs : submit_order name note rows oid now st =
      (none, ⟨st.orders ++ [⟨oid, pystrip name, pystrip note, now, "否"⟩],
        st.items ++ (rows.filter validRow).map (normalizeRow oid)⟩) := by
    unfold submit_order
    simp [hname, hrows]
  refine ⟨by rw [hs], by rw [hs], ?_, by rw [hs], ?_, ?_⟩
  · rw [hs]
    rw [List.countP_append]
    have h0 : st.orders.countP (fun o => decide (o.order_id = oid)) = 0 := by
      rw [List.countP_eq_zero]
      intro o ho
      simpa using hfresh o ho
    simp [h0, List.countP_cons]
  · intro it hit
    obtain ⟨r, hrf, rfl⟩ := List.mem_map.mp hit
    obtain ⟨hrmem, hrv⟩ := List.mem_filter.mp hrf
    obtain ⟨hn, hq⟩ := of_decide_eq_true hrv
    exact ⟨rfl, hoid, hq, hprice r hrmem, r, hrmem, hrv, rfl⟩
  · simp +decide [submit_order, validRow, normalizeRow]

/-- Witness for `submit_order_success` at the claim's own example input
(with a concrete fresh identifier and timestamp). -/
theorem submit_order_success_witness :
    (submit_order "Alice" "" [⟨"Tea", 30, 2⟩] "ab12cd34ef56" "2025-10-14 09:00:00"
      ⟨[], []⟩).1 = none :=
  (submit_order_success "Alice" "" [⟨"Tea", 30, 2⟩] "ab12cd34ef56" "2025-10-14 09:00:00"
    ⟨[], []⟩ (by decide) (by decide) (by decide) (by decide) (by decide)).1

/-- One derived row of the admin-view aggregation (the columns the
groupby of app.py lines 363-364 produces: the two key columns, the
summed quantity, and the truncated amount). -/
structure AggRow where
  item_name : String
  unit_price : ℚ
  total_qty : ℕ
  amount : ℤ
deriving DecidableEq

/-- The grouping keys of `items.groupby(["item_name", "unit_price"])`:
the distinct (item name, unit price) pairs occurring in the line items. -/
def aggKeys (items : List ItemRec) : List (String × ℚ) :=
  (items.map fun it => (it.item_name, it.unit_price)).dedup

/-- Summed quantity of one group: `agg(total_qty=("qty", "sum"))`. -/
def group_qty (items : List ItemRec) (k : String × ℚ) : ℕ :=
  ((items.filter fun it => decide ((it.item_name, it.unit_price) = k)).map ItemRec.qty).sum

/-- The admin-view per-item aggregation (app.py lines 363-364): group by
the exact (item name, unit price) pair, sum quantities per group, and set
`amount = (total_qty * unit_price).astype(int)`. -/
def agg (items : List ItemRec) : List AggRow :=
  (aggKeys items).map fun k =>
    ⟨k.1, k.2, group_qty items k, pyint ((group_qty items k : ℚ) * k.2)⟩

/-- The claim's example line items: Tea at 30 with quantities 2 and 3,
and Tea at 25 with quantity 1. -/
def exampleTea : List ItemRec :=
  [⟨"o1", "Tea", 2, 30⟩, ⟨"o1", "Tea", 3, 30⟩, ⟨"o2", "Tea", 1, 25⟩]

/-- C1: the per-item aggregation has one row per distinct (item name,
unit price) pair occurring in the input and no other rows; each row's
quantity is the sum of the quantities of the exactly-matching line items
and its amount is the truncation (the floor, for non-negative prices) of
summed quantity times unit price.  On the example input
`[{Tea,30,2}, {Tea,30,3}, {Tea,25,1}]` it yields exactly two rows,
(Tea,30) with quantity 5 and amount 150 and (Tea,25) with quantity 1 and
amount 25. -/
theorem agg_correct (items : List ItemRec) :
    ((agg items).map fun row => (row.item_name, row.unit_price)).Nodup ∧
    (∀ k : String × ℚ,
      (k ∈ (agg items).map fun row => (row.item_name, row.unit_price)) ↔
      k ∈ items.map fun it => (it.item_name, it.unit_price)) ∧
    (∀ row ∈ agg items,
      row.total_qty = ((items.filter fun it =>
        decide ((it.item_name, it.unit_price) = (row.item_name, row.unit_price))).map
          ItemRec.qty).sum ∧
      row.amount = pyint ((row.total_qty : ℚ) * row.unit_price) ∧
      (0 ≤ row.unit_price → row.amount = ⌊(row.total_qty : ℚ) * row.unit_price⌋)) ∧
    ((agg exampleTea).length = 2 ∧
      (⟨"Tea", 30, 5, 150⟩ : AggRow) ∈ agg exampleTea ∧
      (⟨"Tea", 25, 1, 25⟩ : AggRow) ∈ agg exampleTea) := by
  have hkeys : ((agg items).map fun row => (row.item_name, row.unit_price)) = aggKeys items := by
    simp [agg, List.map_map, Function.comp_def]
  have hk : aggKeys exampleTea = [("Tea", 30), ("Tea", 25)] := by decide
  have h1 : group_qty exampleTea ("Tea", 30) = 5 := by decide
  have h2 : group_qty exampleTea ("Tea", 25) = 1 := by decide
  have hagg : agg exampleTea = [⟨"Tea", 30, 5, 150⟩, ⟨"Tea", 25, 1, 25⟩] := by
    unfold agg
    rw [hk]
    simp only [List.map_cons, List.map_nil, h1, h2]
    norm_num [pyint]
  refine ⟨hkeys ▸ List.nodup_dedup _, fun k => ?_, fun row hrow => ?_, by rw [hagg]; rfl, ?_, ?_⟩
  · rw [hkeys]
    exact List.mem_dedup
  · obtain ⟨k, hkmem, rfl⟩ := List.mem_map.mp hrow
    refine ⟨rfl, rfl, fun hp => ?_⟩
    exact pyint_eq_floor (mul_nonneg (Nat.cast_nonneg _) hp)
  · rw [hagg]; exact List.mem_cons_self _ _
  · rw [hagg]; exact List.mem_cons_of_mem _ (List.mem_cons_self _ _)

/-- Witness for `agg_correct`: the (Tea, 30) row of the example, with
quantity 5 and amount 150, is among the aggregation's rows. -/
theorem agg_correct_witness : (⟨"Tea", 30, 5, 150⟩ : AggRow) ∈ agg exampleTea :=
  (agg_correct exampleTea).2.2.2.2.1

theorem find?_self_of_mem {α : Type} [DecidableEq α] (a : α) :
    ∀ l : List α, a ∈ l → l.find? (fun x => decide (x = a)) = some a := by
  intro l
  induction l with
  | nil => intro h; cases h
  | cons b t ih =>
      intro h
      by_cases hb : b = a
      · subst hb
        exact List.find?_cons_of_pos _ (by simp)
      · rw [List.find?_cons_of_neg _ (by simpa using hb)]
        exact ih ((List.mem_cons.mp h).resolve_left fun hba => hb hba.symm)

/-- The distinct order identifiers occurring among the line items: the
groups of `items.groupby("order_id")`. -/
def orderIds (items : List ItemRec) : List String :=
  (items.map ItemRec.order_id).dedup

/-- The admin-view per-order totals (app.py lines 374-376; the export's
download total at lines 418-420 is the same computation): group line
items by order identifier and take `int((qty * unit_price).sum())` per
group. -/
def order_total_rows (items : List ItemRec) : List (String × ℤ) :=
  (orderIds items).map fun oid =>
    (oid, pyint (((items.filter fun it => decide (it.order_id = oid)).map
      (fun it => (it.qty : ℚ) * it.unit_price)).sum))

/-- The total an order ends up displayed with: the left-merge of the
orders onto the groupby result followed by `fillna({"order_total": 0})`
(app.py line 377) — an order with no line items gets 0. -/
def order_total_of (items : List ItemRec) (oid : String) : ℤ :=
  match (order_total_rows items).find? (fun p => decide (p.1 = oid)) with
  | some p => p.2
  | none => 0

theorem order_total_of_eq (items : List ItemRec) (oid : String) :
    order_total_of items oid =
      pyint (((items.filter fun it => decide (it.order_id = oid)).map
        (fun it => (it.qty : ℚ) * it.unit_price)).sum) := by
  unfold order_total_of order_total_rows
  rw [List.find?_map]
  by_cases hm : oid ∈ orderIds items
  · rw [show ((fun p : String × ℤ => decide (p.1 = oid)) ∘ fun oid' =>
        (oid', pyint (((items.filter fun it => decide (it.order_id = oid')).map
          (fun it => (it.qty : ℚ) * it.unit_price)).sum))) =
        (fun x => decide (x = oid)) from rfl]
    rw [find?_self_of_mem oid _ hm]
    rfl
  · rw [List.find?_eq_none.mpr]
    · have hfilter : (items.filter fun it => decide (it.order_id = oid)) = [] := by
        rw [List.filter_eq_nil_iff]
        intro it hit hdec
        exact hm (by
          unfold orderIds
          rw [List.mem_dedup]
          exact List.mem_map.mpr ⟨it, hit, of_decide_eq_true hdec⟩)
      simp [hfilter, pyint]
    · intro x hx
      simp only [Function.comp, decide_eq_true_eq]
      intro hxe
      exact hm (hxe ▸ hx)

/-- The claim's example: one order with line items (qty 2, price 15.5)
and (qty 1, price 9.99). -/
def exampleFrac : List ItemRec :=
  [⟨"o1", "A", 2, 31/2⟩, ⟨"o1", "B", 1, 999/100⟩]

/-- C4: every order's total is the integer truncation of the sum over
its line items of quantity times unit price; an order with no line items
gets total 0; and the example order with items (qty 2, price 15.5) and
(qty 1, price 9.99) gets `floor(40.99) = 40`. -/
theorem order_total_correct (items : List ItemRec) (oid : String) :
    order_total_of items oid =
      pyint (((items.filter fun it => decide (it.order_id = oid)).map
        (fun it => (it.qty : ℚ) * it.unit_price)).sum) ∧
    ((∀ it ∈ items, it.order_id ≠ oid) → order_total_of items oid = 0) ∧
    order_total_of exampleFrac "o1" = 40 := by
  refine ⟨order_total_of_eq items oid, fun hno => ?_, ?_⟩
  · rw [order_total_of_eq]
    have hfilter : (items.filter fun it => decide (it.order_id = oid)) = [] := by
      rw [List.filter_eq_nil_iff]
      intro it hit hdec
      exact hno it hit (of_decide_eq_true hdec)
    simp [hfilter, pyint]
  · rw [order_total_of_eq]
    have h0 : (((exampleFrac.filter fun it => decide (it.order_id = "o1")).map
        (fun it => (it.qty : ℚ) * it.unit_price)).sum) = 4099 / 100 := by
      simp [exampleFrac]
      norm_num
    rw [h0, pyint_eq_floor (by norm_num)]
    norm_num

/-- Witness for `order_total_correct`: an order identifier with no line
items at all gets total 0. -/
theorem order_total_correct_witness : order_total_of [] "absent" = 0 :=
  (order_total_correct [] "absent").2.1 (by decide)

/-- Payment-toggle button handler (app.py lines 390-395) over the
freshly re-loaded order collection.  The mask selects the rows whose
`order_id` equals the clicked identifier; `cur` is read from the first
selected row with `.iloc[0]`, which raises an uncaught `IndexError` when
the selection is empty — modelled by `none`, with no save happening in
that case.  Otherwise every selected row's flag is assigned
`"否" if cur == "是" else "是"` and the whole collection is saved. -/
def toggle_paid (oid : String) (orders : List OrderRec) : Option (List OrderRec) :=
  match orders.find? (fun o => decide (o.order_id = oid)) with
  | none => none
  | some cur =>
      some (orders.map fun o =>
        if o.order_id = oid then
          { o with is_paid := if cur.is_paid = "是" then "否" else "是" }
        else o)

theorem map_id_of_mem {α : Type} (l : List α) (f : α → α) (h : ∀ a ∈ l, f a = a) :
    l.map f = l := by
  induction l with
  | nil => rfl
  | cons b t ih =>
      rw [List.map_cons, h b (List.mem_cons_self b t),
        ih fun a ha => h a (List.mem_cons_of_mem b ha)]

theorem toggle_paid_of_uniform (oid : String) (orders : List OrderRec) (p : String)
    (hmem : ∃ o ∈ orders, o.order_id = oid)
    (hflag : ∀ o ∈ orders, o.order_id = oid → o.is_paid = p) :
    toggle_paid oid orders = some (orders.map fun o =>
      if o.order_id = oid then { o with is_paid := if p = "是" then "否" else "是" }
      else o) := by
  obtain ⟨o0, ho0, hid0⟩ := hmem
  have hfs : (orders.find? fun o => decide (o.order_id = oid)).isSome := by
    rw [List.find?_isSome]
    exact ⟨o0, ho0, by simp [hid0]⟩
  obtain ⟨w, hw⟩ := Option.isSome_iff_exists.mp hfs
  have hpred := List.find?_some hw
  have hwp : w.is_paid = p :=
    hflag w (List.mem_of_find?_eq_some hw) (of_decide_eq_true hpred)
  unfold toggle_paid
  rw [hw]
  show some (orders.map fun o =>
      if o.order_id = oid then { o with is_paid := if w.is_paid = "是" then "否" else "是" }
      else o) = _
  rw [hwp]

/-- C5 counterexample: invoking the payment toggle with an order
identifier absent from the current collection is not a warned no-op: at
the concrete inputs `oid = "zz"` with the empty collection, and with a
one-order collection not containing "zz", the handler reaches the
uncaught `IndexError` of `.iloc[0]` on an empty selection (modelled by
`none`) instead of completing with a warning. -/
theorem toggle_paid_missing_cex :
    toggle_paid "zz" [] = none ∧
    toggle_paid "zz" [⟨"aa", "Ann", "", "2025-10-14 09:00:00", "否"⟩] = none := by
  decide

/-- C5 amended: when the payment toggle is invoked with an order
identifier absent from the collection, the handler aborts with an
uncaught indexing error before any write (so the stored collection is
unchanged), instead of surfacing a warning no-op. -/
theorem toggle_paid_missing (oid : String) (orders : List OrderRec)
    (h : ∀ o ∈ orders, o.order_id ≠ oid) :
    toggle_paid oid orders = none := by
  unfold toggle_paid
  rw [List.find?_eq_none.mpr fun o ho => by simpa using h o ho]

/-- Witness for `toggle_paid_missing`: a collection holding only order
"aa" makes the toggle for "zz" abort. -/
theorem toggle_paid_missing_witness :
    toggle_paid "zz" [⟨"aa", "Ann", "", "2025-10-14 09:00:00", "是"⟩] = none :=
  toggle_paid_missing "zz" [⟨"aa", "Ann", "", "2025-10-14 09:00:00", "是"⟩] (by decide)

/-- C6: for an order present in the collection whose payment flag — the
flag shared by every row carrying its identifier, identifiers being
unique in the store — is one of the two states "是" (paid) / "否"
(unpaid), applying the payment toggle twice in succession returns the
collection, and so that order, to its original state. -/
theorem toggle_paid_involution (oid : String) (orders : List OrderRec) (p : String)
    (hmem : ∃ o ∈ orders, o.order_id = oid)
    (hflag : ∀ o ∈ orders, o.order_id = oid → o.is_paid = p)
    (hp : p = "是" ∨ p = "否") :
    (toggle_paid oid orders).bind (toggle_paid oid) = some orders := by
  obtain ⟨o0, ho0, hid0⟩ := hmem
  rw [toggle_paid_of_uniform oid orders p ⟨o0, ho0, hid0⟩ hflag, Option.some_bind]
  set q : String := if p = "是" then "否" else "是" with hq
  set f : OrderRec → OrderRec :=
    fun o => if o.order_id = oid then { o with is_paid := q } else o with hf
  have hmemf : f o0 ∈ orders.map f := List.mem_map_of_mem f ho0
  have hidf : (f o0).order_id = oid := by rw [hf]; simp [hid0]
  have hflagf : ∀ o' ∈ orders.map f, o'.order_id = oid → o'.is_paid = q := by
    intro o' ho' hido'
    obtain ⟨o, ho, rfl⟩ := List.mem_map.mp ho'
    by_cases hid : o.order_id = oid
    · rw [hf]; simp [hid]
    · exfalso
      apply hid
      have hfo : f o = o := by rw [hf]; simp [hid]
      rwa [hfo] at hido'
  rw [toggle_paid_of_uniform oid (orders.map f) q ⟨f o0, hmemf, hidf⟩ hflagf]
  have hqp : (if q = "是" then "否" else "是") = p := by
    rcases hp with rfl | rfl <;> simp [hq]
  simp only [hqp, List.map_map]
  congr 1
  apply map_id_of_mem
  intro o ho
  simp only [Function.comp_def]
  by_cases hid : o.order_id = oid
  · have hfo : f o = { o with is_paid := q } := by rw [hf]; simp [hid]
    rw [hfo]
    have hidq : ({ o with is_paid := q } : OrderRec).order_id = oid := hid
    rw [if_pos hidq]
    show { o with is_paid := p } = o
    rw [← hflag o ho hid]
  · have hfo : f o = o := by rw [hf]; simp [hid]
    rw [hfo, if_neg hid]

/-- Witness for `toggle_paid_involution`: toggling order "aa" (unpaid)
twice in a one-order collection restores the collection. -/
theorem toggle_paid_involution_witness :
    (toggle_paid "aa" [⟨"aa", "Ann", "", "2025-10-14 09:00:00", "否"⟩]).bind
      (toggle_paid "aa") = some [⟨"aa", "Ann", "", "2025-10-14 09:00:00", "否"⟩] :=
  toggle_paid_involution "aa" [⟨"aa", "Ann", "", "2025-10-14 09:00:00", "否"⟩] "否"
    ⟨⟨"aa", "Ann", "", "2025-10-14 09:00:00", "否"⟩, by decide, rfl⟩
    (by decide) (Or.inr rfl)

/-- Environment a storage read runs against: the outcome of the GitHub
raw-content fetch (`gh_read_csv`, app.py lines 20-24, which either
returns parsed rows or raises) and the state of the two local CSV files
(existing with rows, or absent). -/
structure StorageEnv where
  ghOrders : Except Unit (List OrderRec)
  ghItems : Except Unit (List ItemRec)
  localOrders : Option (List OrderRec)
  localItems : Option (List ItemRec)

/-- The GitHub-backed `load_orders` (app.py lines 33-37): try the remote
fetch; on any exception return an empty frame.  Note the fallback is the
empty collection, not the local store. -/
def load_orders_github (env : StorageEnv) : List OrderRec :=
  match env.ghOrders with
  | Except.ok rows => rows
  | Except.error _ => []

/-- The GitHub-backed `load_order_items` (app.py lines 39-46), with the
numeric coercions already folded into the row representation. -/
def load_order_items_github (env : StorageEnv) : List ItemRec :=
  match env.ghItems with
  | Except.ok rows => rows
  | Except.error _ => []

/-- The local-CSV `load_orders` (app.py lines 81-84): read the file when
it exists, else an empty frame. -/
def load_orders_local (env : StorageEnv) : List OrderRec :=
  env.localOrders.getD []

/-- The local-CSV `load_order_items` (app.py lines 86-94). -/
def load_order_items_local (env : StorageEnv) : List ItemRec :=
  env.localItems.getD []

/-- The binding in effect at every call site (app.py lines 317-318,
355-356 and 391): the module executes its `def` statements top to
bottom, and the local definitions at lines 81-94 run after the
GitHub-backed ones at lines 33-46, rebinding the names; so `load_orders`
resolves to the local reader — the opposite of the comment at line 32,
which says the GitHub versions override the original ones. -/
def load_orders (env : StorageEnv) : List OrderRec := load_orders_local env

/-- Item-reads resolve to the local reader for the same reason. -/
def load_order_items (env : StorageEnv) : List ItemRec := load_order_items_local env

/-- Demonstration environment: the remote fetches succeed with a remote
order and a remote line item, while the local files hold a different
order and no items. -/
def demoEnv : StorageEnv :=
  ⟨Except.ok [⟨"r1", "Remote", "", "2025-10-13 10:00:00", "否"⟩],
    Except.ok [⟨"r1", "Tea", 1, 30⟩],
    some [⟨"l1", "Local", "", "2025-10-13 11:00:00", "否"⟩], some []⟩

/-- Demonstration environment in which the remote fetches fail while the
local order file holds a row. -/
def demoEnvFail : StorageEnv :=
  ⟨Except.error (), Except.error (),
    some [⟨"l1", "Local", "", "2025-10-13 11:00:00", "否"⟩], some []⟩

/-- C9: reads are not remote-first.  With the remote fetch succeeding and
the stores holding different data, the program's `load_orders` and
`load_order_items` return the local rows — the remote result is never
consulted, because the local redefinitions (app.py lines 81-94) shadow
the GitHub-backed definitions (lines 33-46), contrary to the comment at
line 32; and even the shadowed GitHub-backed reader falls back to the
empty collection, not to local storage, when the remote read fails. -/
theorem load_orders_not_remote_first :
    load_orders demoEnv = [⟨"l1", "Local", "", "2025-10-13 11:00:00", "否"⟩] ∧
    load_orders_github demoEnv = [⟨"r1", "Remote", "", "2025-10-13 10:00:00", "否"⟩] ∧
    load_orders demoEnv ≠ load_orders_github demoEnv ∧
    load_order_items demoEnv = [] ∧
    load_order_items_github demoEnv = [⟨"r1", "Tea", 1, 30⟩] ∧
    load_orders_github demoEnvFail = [] ∧
    load_orders_github demoEnvFail ≠ load_orders_local demoEnvFail := by
  refine ⟨rfl, rfl, by decide, rfl, rfl, rfl, by decide⟩

/-- Running total shown on the order form and recorded in the Excel
Orders sheet at submission time (app.py lines 294-295 and 340-343): the
sum over the form rows of `int(r["unit_price"] * r["qty"])` — the
truncation is applied per row before summing. -/
def form_total (rows : List FormRow) : ℤ :=
  (rows.map fun r => pyint (r.unit_price * (r.qty : ℚ))).sum

/-- C10 counterexample: two valid rows priced 0.5 with quantity 1.  The
submission-time total is `int(0.5) + int(0.5) = 0`, while the per-order
total recomputed by the admin view and the export over the very line
items persisted by that submission is `int(0.5 + 0.5) = 1`. -/
theorem totals_disagree_cex :
    (∀ r ∈ ([⟨"A", 1/2, 1⟩, ⟨"B", 1/2, 1⟩] : List FormRow), validRow r = true) ∧
    form_total [⟨"A", 1/2, 1⟩, ⟨"B", 1/2, 1⟩] = 0 ∧
    order_total_of
      ((submit_order "Ann" "" [⟨"A", 1/2, 1⟩, ⟨"B", 1/2, 1⟩] "o1" "t" ⟨[], []⟩).2.items)
      "o1" = 1 ∧
    (0 : ℤ) ≠ 1 := by
  have htrunc : pyint ((1 : ℚ)/2 * (1 : ℕ)) = 0 := by
    rw [pyint_eq_floor (by norm_num)]
    norm_num
  have hitems : (submit_order "Ann" "" [⟨"A", 1/2, 1⟩, ⟨"B", 1/2, 1⟩] "o1" "t"
      ⟨[], []⟩).2.items = [⟨"o1", "A", 1, 1/2⟩, ⟨"o1", "B", 1, 1/2⟩] := rfl
  have hfilter : (([⟨"o1", "A", 1, 1/2⟩, ⟨"o1", "B", 1, 1/2⟩] : List ItemRec).filter
      fun it => decide (it.order_id = "o1")) = [⟨"o1", "A", 1, 1/2⟩, ⟨"o1", "B", 1, 1/2⟩] := rfl
  refine ⟨by decide, ?_, ?_, by decide⟩
  · simp only [form_total, List.map_cons, List.map_nil, List.sum_cons, List.sum_nil]
    rw [htrunc]
    rfl
  · rw [hitems, order_total_of_eq, hfilter]
    simp only [List.map_cons, List.map_nil, List.sum_cons, List.sum_nil]
    rw [pyint_eq_floor (by norm_num)]
    norm_num

theorem pyint_sum_int (l : List ℚ) (h : ∀ q ∈ l, q.den = 1) :
    ∃ z : ℤ, l.sum = (z : ℚ) ∧ (l.map pyint).sum = z := by
  induction l with
  | nil => exact ⟨0, by simp, by simp⟩
  | cons a t ih =>
      obtain ⟨z, hz1, hz2⟩ := ih fun q hq => h q (List.mem_cons_of_mem a hq)
      have ha : ((a.num : ℚ)) = a := (Rat.den_eq_one_iff a).mp (h a (List.mem_cons_self a t))
      have hpa : pyint a = a.num := by
        conv_lhs => rw [← ha]
        exact pyint_intCast a.num
      refine ⟨a.num + z, ?_, ?_⟩
      · rw [List.sum_cons, hz1]
        push_cast
        rw [ha]
      · rw [List.map_cons, List.sum_cons, hz2, hpa]

/-- C10 amended: for every sequence of valid line-item rows whose unit
prices are whole numbers, the total recorded at submission time equals
the per-order total later recomputed by the admin view and the export
over the persisted line items; with fractional prices the two can
disagree, since the submission total sums per-row truncations while the
recomputation truncates the sum. -/
theorem totals_agree_on_integer_prices (name note : String) (rows : List FormRow)
    (oid now : String) (st : Stores)
    (hname : pystrip name ≠ "") (hvalid : ∀ r ∈ rows, validRow r = true)
    (hne : rows ≠ [])
    (hfresh : ∀ it ∈ st.items, it.order_id ≠ oid)
    (hint : ∀ r ∈ rows, r.unit_price.den = 1) :
    order_total_of ((submit_order name note rows oid now st).2.items) oid =
      form_total rows := by
  have hfilt : rows.filter validRow = rows := List.filter_eq_self.mpr hvalid
  have hsub : (submit_order name note rows oid now st).2.items =
      st.items ++ rows.map (normalizeRow oid) := by
    unfold submit_order
    rw [if_neg hname, if_neg (by rw [hfilt]; exact hne)]
    rw [hfilt]
  rw [hsub, order_total_of_eq, List.filter_append]
  have h1 : (st.items.filter fun it => decide (it.order_id = oid)) = [] := by
    rw [List.filter_eq_nil_iff]
    intro it hit hdec
    exact hfresh it hit (of_decide_eq_true hdec)
  have h2 : ((rows.map (normalizeRow oid)).filter fun it => decide (it.order_id = oid)) =
      rows.map (normalizeRow oid) := by
    rw [List.filter_eq_self]
    intro it hit
    obtain ⟨r, hr, rfl⟩ := List.mem_map.mp hit
    simp [normalizeRow]
  rw [h1, h2, List.nil_append, List.map_map]
  have hl : ∀ q ∈ rows.map fun r => (r.qty : ℚ) * r.unit_price, q.den = 1 := by
    intro q hq
    obtain ⟨r, hr, rfl⟩ := List.mem_map.mp hq
    have ha : ((r.unit_price.num : ℚ)) = r.unit_price :=
      (Rat.den_eq_one_iff r.unit_price).mp (hint r hr)
    have hprod : (r.qty : ℚ) * r.unit_price = (((r.qty : ℤ) * r.unit_price.num : ℤ) : ℚ) := by
      conv_lhs => rw [← ha]
      push_cast
      ring
    rw [hprod, Rat.den_intCast]
  obtain ⟨z, hz1, hz2⟩ := pyint_sum_int _ hl
  rw [show ((fun it : ItemRec => (it.qty : ℚ) * it.unit_price) ∘ normalizeRow oid) =
      (fun r : FormRow => (r.qty : ℚ) * r.unit_price) from rfl]
  rw [hz1, pyint_intCast, ← hz2]
  unfold form_total
  rw [List.map_map]
  congr 1
  apply List.map_congr_left
  intro r hr
  simp only [Function.comp_def]
  rw [mul_comm]

/-- Witness for `totals_agree_on_integer_prices`: one valid row priced 3
with quantity 2; both totals are 6. -/
theorem totals_agree_on_integer_prices_witness :
    order_total_of ((submit_order "Ann" "" [⟨"A", 3, 2⟩] "o1" "t" ⟨[], []⟩).2.items) "o1" =
      form_total [⟨"A", 3, 2⟩] :=
  totals_agree_on_integer_prices "Ann" "" [⟨"A", 3, 2⟩] "o1" "t" ⟨[], []⟩
    (by decide) (by decide) (by decide) (by decide) (by decide)

end OrderSystem
